import Mathlib

/-!
Shallow embedding of the block-economics helpers of
`src/vm/compiler/src/ledger/helpers/mod.rs` (snarkVM ledger):
the reward functions (`staking_reward`, `anchor_reward`, `coinbase_reward`,
`estimated_block_height`) and the ASERT-style difficulty retargeting
(`retarget`, `coinbase_target`).

Machine integers are modelled by `Nat`/`Int` with the saturating, wrapping
and truncating operations of the Rust source made explicit.  Fallible Rust
code (`Result`, panics) is modelled by `Except RErr`: `RErr.overflow` is the
recoverable `ArithmeticOverflow` error produced by `u64::try_from` /
`checked_mul`, while `RErr.panic` is a Rust panic (division by zero).
-/

/-- Largest value of a Rust `u64`. -/
def U64MAX : Nat := 2 ^ 64 - 1

/-- Largest value of a Rust `u128`. -/
def U128MAX : Nat := 2 ^ 128 - 1

/-- Clamp an integer into the `i64` range, as the result of Rust
`i64::saturating_sub` applied to the exact difference. -/
def i64sat (x : Int) : Int := max (-(2 ^ 63)) (min x (2 ^ 63 - 1))

/-- Wrap an integer into the `i64` range (two's complement), as Rust
release-mode `i64` arithmetic does. -/
def wrap64 (x : Int) : Int := (x + 2 ^ 63) % 2 ^ 64 - 2 ^ 63

/-- Truncating cast of an integer to a Rust `u32` (Rust `as u32`):
the low 32 bits. -/
def u32cast (x : Int) : Nat := (x % 2 ^ 32).toNat

/-- Truncating cast of an integer to a Rust `u128` (Rust `as u128`):
the low 128 bits. -/
def u128cast (x : Int) : Nat := (x % 2 ^ 128).toNat

/-- Rust `i128::saturating_mul`. -/
def i128satMul (a b : Int) : Int := max (-(2 ^ 127)) (min (a * b) (2 ^ 127 - 1))

/-- Rust `u128::saturating_mul`. -/
def u128satMul (a b : Nat) : Nat := min (a * b) U128MAX

/-- Error outcomes of the fallible reward functions.  `overflow` is the
recoverable `ArithmeticOverflow` (`anyhow` error); `panic` is a Rust panic
(integer division by zero). -/
inductive RErr where
  | overflow
  | panic
deriving DecidableEq

/-- Rust `block_timestamp.saturating_sub(previous_block_timestamp)` followed
by `core::cmp::max(_, 1)`: the clamped block time elapsed in `retarget`. -/
def blockTimeElapsed (pts ts : Int) : Int := max (i64sat (ts - pts)) 1

/-- The drift `block_time_elapsed - ANCHOR_TIME` of `retarget`, a standard
(release-mode wrapping) `i64` subtraction. -/
def driftRaw (A pts ts : Int) : Int := wrap64 (blockTimeElapsed pts ts - A)

/-- The drift after the optional negation `drift *= -1` performed when
`is_inverse` is set (again wrapping `i64` arithmetic). -/
def driftInv (A pts ts : Int) (inv : Bool) : Int :=
  if inv then wrap64 (-(driftRaw A pts ts)) else driftRaw A pts ts

/-- The exponent factor of `retarget`:
`(RADIX as i128).saturating_mul(drift as i128) / NUM_BLOCKS_PER_EPOCH as i128`,
with `RADIX = 2^16` and Rust signed division truncating toward zero. -/
def exponentOf (A : Int) (N : Nat) (pts ts : Int) (inv : Bool) : Int :=
  Int.tdiv (i128satMul 65536 (driftInv A pts ts inv)) (N : Int)

/-- The integral part `exponent >> RBITS` of the fixed-point decomposition
(arithmetic shift right on `i128`, i.e. floor division by `2^16`). -/
def integralOf (A : Int) (N : Nat) (pts ts : Int) (inv : Bool) : Int :=
  Int.fdiv (exponentOf A N pts ts inv) 65536

/-- The fractional part `(exponent - (integral << RBITS)) as u128` of the
fixed-point decomposition in `retarget`. -/
def fractionalOf (A : Int) (N : Nat) (pts ts : Int) (inv : Bool) : Nat :=
  u128cast (exponentOf A N pts ts inv - integralOf A N pts ts inv * 65536)

/-- The fractional multiplier of `retarget`, approximating
`RADIX * 2^(fractional/RADIX)` by the fixed cubic polynomial of the source
(`u128` arithmetic; `2^(RBITS*3 - 1) = 2^47`, `>> (RBITS*3)` is `>> 48`). -/
def fmulOf (fractional : Nat) : Nat :=
  65536 +
    (195766423245049 * fractional + 971821376 * fractional ^ 2 +
        5127 * fractional ^ 3 + 2 ^ 47) / 2 ^ 48

/-- The candidate target before shifting:
`(previous_target as u128).saturating_mul(fractional_multiplier)`. -/
def candidateOf (A : Int) (N : Nat) (prev : Nat) (pts ts : Int) (inv : Bool) : Nat :=
  u128satMul prev (fmulOf (fractionalOf A N pts ts inv))

/-- The shift step of `retarget`: `shifts = integral - RBITS`; a negative
shift is a `u128::checked_shr` by `(-shifts) as u32` floored at `1` (`None`,
i.e. a shift amount of at least 128 bits, also yields `1`); a nonnegative
shift is a `u128::checked_shl` by `shifts as u32` floored at `1`, with `None`
replaced by `u64::MAX`.  Rust `checked_shl` keeps only the low 128 bits of
the shifted value. -/
def shiftedOf (A : Int) (N : Nat) (prev : Nat) (pts ts : Int) (inv : Bool) : Nat :=
  let candidate := candidateOf A N prev pts ts inv
  let shifts := integralOf A N pts ts inv - 16
  if shifts < 0 then
    if 128 ≤ u32cast (-shifts) then 1
    else max (candidate / 2 ^ u32cast (-shifts)) 1
  else
    if 128 ≤ u32cast shifts then U64MAX
    else max (candidate * 2 ^ u32cast shifts % 2 ^ 128) 1

/-- The retarget algorithm of the source (`fn retarget`): early return of the
previous target on zero drift, otherwise the fixed-point exponential step
followed by the final cap `min(candidate, u64::MAX)`. -/
def retarget (A : Int) (N : Nat) (prev : Nat) (pts ts : Int) (inv : Bool) : Nat :=
  if driftRaw A pts ts = 0 then prev
  else min (shiftedOf A N prev pts ts inv) U64MAX

/-- The coinbase target (`pub fn coinbase_target`):
`max((1u64 << 10).saturating_sub(1), retarget(..., is_inverse = true))`. -/
def coinbase_target (A : Int) (N : Nat) (prev : Nat) (pts ts : Int) : Nat :=
  max (2 ^ 10 - 1) (retarget A N prev pts ts true)

/-- The estimated block height after `num_years` years
(`fn estimated_block_height`): `SECONDS_IN_A_YEAR / anchor_time * num_years`
with `SECONDS_IN_A_YEAR = 60 * 60 * 24 * 365`. -/
def estimated_block_height (anchor_time : Nat) (num_years : Nat) : Nat :=
  60 * 60 * 24 * 365 / anchor_time * num_years

/-- Rust `ANCHOR_TIME as u64`: the truncating cast of the `i64` anchor time
to `u64`. -/
def i64AsU64 (a : Int) : Nat := (a % 2 ^ 64).toNat

/-- The anchor reward (`fn anchor_reward`):
`u64::try_from(2 * S / (H_Y10 * (H_Y10 + 1)))` in `u128` arithmetic, where
`H_Y10 = estimated_block_height(ANCHOR_TIME as u64, 10)`.  A zero denominator
is a Rust panic; a quotient above `u64::MAX` is the recoverable overflow. -/
def anchor_reward (S : Nat) (A : Int) : Except RErr Nat :=
  let H := estimated_block_height (i64AsU64 A) 10
  if H * (H + 1) = 0 then .error .panic
  else if U64MAX < 2 * S / (H * (H + 1)) then .error .overflow
  else .ok (2 * S / (H * (H + 1)))

/-- The staking reward (`fn staking_reward`):
`u64::try_from(S as u128 * 25 / 1000 / H_Y1)` with
`H_Y1 = estimated_block_height(ANCHOR_TIME as u64, 1)`. -/
def staking_reward (S : Nat) (A : Int) : Except RErr Nat :=
  let H := estimated_block_height (i64AsU64 A) 1
  if H = 0 then .error .panic
  else if U64MAX < S * 25 / 1000 / H then .error .overflow
  else .ok (S * 25 / 1000 / H)

/-- The coinbase reward (`fn coinbase_reward`):
`max = max(H_Y10.saturating_sub(block_height), 0)`, then
`max.checked_mul(anchor_reward()?)`; a zero product returns `Ok(0)` and a
nonzero product is fed through `retarget(..., is_inverse = true)`. -/
def coinbase_reward (S : Nat) (A : Int) (N : Nat) (pts ts : Int) (h : Nat) :
    Except RErr Nat :=
  let H10 := estimated_block_height (i64AsU64 A) 10
  let mx := max (H10 - h) 0
  match anchor_reward S A with
  | .error e => .error e
  | .ok ar =>
    if U64MAX < mx * ar then .error .overflow
    else if mx * ar = 0 then .ok 0
    else .ok (retarget A N (mx * ar) pts ts true)

/-! ### Basic facts about the integer-width helpers -/

theorem wrap64_eq {x : Int} (h1 : -(2 ^ 63) ≤ x) (h2 : x < 2 ^ 63) :
    wrap64 x = x := by
  unfold wrap64
  rw [Int.emod_eq_of_lt (by omega) (by omega)]
  omega

theorem i64sat_eq {x : Int} (h1 : -(2 ^ 63) ≤ x) (h2 : x ≤ 2 ^ 63 - 1) :
    i64sat x = x := by
  unfold i64sat
  rw [min_eq_left h2, max_eq_right h1]

theorem blockTimeElapsed_lb (pts ts : Int) : 1 ≤ blockTimeElapsed pts ts :=
  le_max_right _ _

theorem blockTimeElapsed_ub (pts ts : Int) : blockTimeElapsed pts ts ≤ 2 ^ 63 - 1 := by
  unfold blockTimeElapsed i64sat
  apply max_le
  · exact max_le (by norm_num) (min_le_right _ _)
  · norm_num

theorem driftRaw_eq {A : Int} (pts ts : Int) (hA1 : 1 ≤ A) (hA2 : A ≤ 2 ^ 63 - 1) :
    driftRaw A pts ts = blockTimeElapsed pts ts - A := by
  have h1 := blockTimeElapsed_lb pts ts
  have h2 := blockTimeElapsed_ub pts ts
  unfold driftRaw
  exact wrap64_eq (by omega) (by omega)

theorem driftInv_true_eq {A : Int} (pts ts : Int) (hA1 : 1 ≤ A) (hA2 : A ≤ 2 ^ 63 - 1) :
    driftInv A pts ts true = A - blockTimeElapsed pts ts := by
  have h1 := blockTimeElapsed_lb pts ts
  have h2 := blockTimeElapsed_ub pts ts
  show wrap64 (-(driftRaw A pts ts)) = A - blockTimeElapsed pts ts
  rw [driftRaw_eq pts ts hA1 hA2, wrap64_eq (by omega) (by omega)]
  ring

theorem i128satMul_eq {d : Int} (h1 : -(2 ^ 63) ≤ d) (h2 : d ≤ 2 ^ 63) :
    i128satMul 65536 d = 65536 * d := by
  unfold i128satMul
  rw [min_eq_left (by omega), max_eq_right (by omega)]

theorem u32cast_eq {x : Int} (h1 : 0 ≤ x) (h2 : x < 2 ^ 32) :
    (u32cast x : Int) = x := by
  unfold u32cast
  rw [Int.emod_eq_of_lt h1 h2, Int.toNat_of_nonneg h1]

theorem u128satMul_eq {a b : Nat} (h : a * b ≤ U128MAX) : u128satMul a b = a * b :=
  min_eq_left h

/-! ### The fixed-point decomposition of the exponent -/

theorem integralOf_eq (A : Int) (N : Nat) (pts ts : Int) (inv : Bool) :
    integralOf A N pts ts inv = exponentOf A N pts ts inv / 65536 :=
  Int.fdiv_eq_ediv _ (by norm_num)

theorem fractionalOf_cast (A : Int) (N : Nat) (pts ts : Int) (inv : Bool) :
    (fractionalOf A N pts ts inv : Int) = exponentOf A N pts ts inv % 65536 := by
  have h1 : 0 ≤ exponentOf A N pts ts inv % 65536 :=
    Int.emod_nonneg _ (by norm_num)
  have h2 : exponentOf A N pts ts inv % 65536 < 65536 :=
    Int.emod_lt_of_pos _ (by norm_num)
  unfold fractionalOf u128cast
  rw [integralOf_eq]
  have h3 : exponentOf A N pts ts inv - exponentOf A N pts ts inv / 65536 * 65536
      = exponentOf A N pts ts inv % 65536 := by omega
  rw [h3, Int.emod_eq_of_lt (by omega) (by omega), Int.toNat_of_nonneg (by omega)]

theorem fractionalOf_lt (A : Int) (N : Nat) (pts ts : Int) (inv : Bool) :
    fractionalOf A N pts ts inv < 65536 := by
  have h := fractionalOf_cast A N pts ts inv
  have h2 : exponentOf A N pts ts inv % 65536 < 65536 :=
    Int.emod_lt_of_pos _ (by norm_num)
  exact_mod_cast h ▸ h2

theorem exponent_decomp (A : Int) (N : Nat) (pts ts : Int) (inv : Bool) :
    exponentOf A N pts ts inv
      = integralOf A N pts ts inv * 65536 + fractionalOf A N pts ts inv := by
  rw [integralOf_eq, fractionalOf_cast]
  omega

/-! ### Bounds for the fractional multiplier -/

theorem fmulOf_mono {f g : Nat} (h : f ≤ g) : fmulOf f ≤ fmulOf g := by
  unfold fmulOf
  gcongr

theorem fmulOf_ub {f : Nat} (h : f < 65536) : fmulOf f ≤ 131071 := by
  have h1 : fmulOf f ≤ fmulOf 65535 := fmulOf_mono (by omega)
  have h2 : fmulOf 65535 = 131071 := by decide
  omega

theorem fmulOf_lb {f : Nat} (h : 1 ≤ f) : 65537 ≤ fmulOf f := by
  have h1 : fmulOf 1 ≤ fmulOf f := fmulOf_mono h
  have h2 : fmulOf 1 = 65537 := by decide
  omega

theorem fmulOf_lb0 (f : Nat) : 65536 ≤ fmulOf f := Nat.le_add_right _ _

/-! ### C1: the worked toy scenario -/

/-- C1 (counterexample): with toy constants `previous_target = 1024`,
`anchor_time = 10`, `num_blocks_per_epoch = 10`, `previous_timestamp = 0` and
`timestamp = 20`, `coinbase_target` does NOT return 512: the `2^10 - 1` floor
of `coinbase_target` overrides the 512 produced by the retarget step. -/
theorem c1_counterexample : coinbase_target 10 10 1024 0 20 ≠ 512 := by decide

/-- C1 (amended): with toy constants `previous_target = 1024`,
`anchor_time = 10`, `num_blocks_per_epoch = 10`, `previous_timestamp = 0` and
`timestamp = 20`, the retarget step computes 512 (drift 10, inverted to −10,
exponent −65536, integral −1, fractional 0, fractional multiplier 65536,
candidate 67108864, shift −17), and `coinbase_target` returns
`max(2^10 - 1, 512) = 1023`. -/
theorem c1_toy_scenario :
    retarget 10 10 1024 0 20 true = 512 ∧ coinbase_target 10 10 1024 0 20 = 1023 :=
  ⟨by decide, by decide⟩

/-! ### C3: the coinbase-target floor -/

/-- C3: for every previous coinbase target and every pair of timestamps
(with valid constants), the value returned by `coinbase_target` is at least
`2^10 - 1`. -/
theorem c3_coinbase_target_floor (A : Int) (N prev : Nat) (pts ts : Int)
    (hA : 1 ≤ A) (hN : 1 ≤ N) :
    2 ^ 10 - 1 ≤ coinbase_target A N prev pts ts :=
  le_max_left _ _

/-- Witness for C3 at `A = 10`, `N = 10`, `prev = 0`, timestamps `0, 0`. -/
theorem c3_coinbase_target_floor_witness :
    (1 ≤ (10 : Int) ∧ 1 ≤ (10 : Nat)) ∧ 2 ^ 10 - 1 ≤ coinbase_target 10 10 0 0 0 :=
  ⟨⟨by decide, by decide⟩,
    c3_coinbase_target_floor 10 10 0 0 0 (by decide) (by decide)⟩

/-! ### C4: zero drift is a no-op -/

/-- C4: for every previous value, `retarget` returns the previous value
unchanged whenever `timestamp - previous_timestamp` equals the (positive,
`i64`-ranged) anchor time exactly, for both values of `is_inverse`. -/
theorem c4_retarget_noop (A : Int) (N prev : Nat) (pts ts : Int) (inv : Bool)
    (hA1 : 1 ≤ A) (hA2 : A ≤ 2 ^ 63 - 1) (hts : ts - pts = A) :
    retarget A N prev pts ts inv = prev := by
  have hel : blockTimeElapsed pts ts = A := by
    unfold blockTimeElapsed
    rw [hts, i64sat_eq (by omega) (by omega), max_eq_left hA1]
  have h0 : driftRaw A pts ts = 0 := by
    unfold driftRaw
    rw [hel, sub_self]
    exact wrap64_eq (by norm_num) (by norm_num)
  unfold retarget
  rw [h0]
  simp

/-- Witness for C4 at `A = 10`, `N = 10`, `prev = 7`, timestamps `0, 10`,
`is_inverse = true`. -/
theorem c4_retarget_noop_witness :
    (1 ≤ (10 : Int) ∧ (10 : Int) ≤ 2 ^ 63 - 1 ∧ (10 : Int) - 0 = 10) ∧
      retarget 10 10 7 0 10 true = 7 :=
  ⟨⟨by decide, by decide, by decide⟩,
    c4_retarget_noop 10 10 7 0 10 true (by decide) (by decide) (by decide)⟩

/-! ### C9: the internal assertions of retarget -/

/-- C9: the internal assertions of `retarget` hold for every input: the
fixed-point decomposition satisfies `fractional < RADIX` and
`exponent = integral * RADIX + fractional`, and (for a `u64` previous
target) the final value has zero high 64 bits, so the assertion failure
branches are unreachable. -/
theorem c9_retarget_assertions (A : Int) (N prev : Nat) (pts ts : Int)
    (inv : Bool) (hprev : prev ≤ U64MAX) :
    fractionalOf A N pts ts inv < 65536 ∧
      exponentOf A N pts ts inv
        = integralOf A N pts ts inv * 65536 + fractionalOf A N pts ts inv ∧
      retarget A N prev pts ts inv < 2 ^ 64 := by
  refine ⟨fractionalOf_lt A N pts ts inv, exponent_decomp A N pts ts inv, ?_⟩
  unfold retarget
  split
  · unfold U64MAX at hprev
    omega
  · unfold U64MAX
    omega

/-- Witness for C9 at `A = 10`, `N = 10`, `prev = 1024`, timestamps `0, 20`,
`is_inverse = true`. -/
theorem c9_retarget_assertions_witness :
    (1024 ≤ U64MAX) ∧
      (fractionalOf 10 10 0 20 true < 65536 ∧
        exponentOf 10 10 0 20 true
          = integralOf 10 10 0 20 true * 65536 + fractionalOf 10 10 0 20 true ∧
        retarget 10 10 1024 0 20 true < 2 ^ 64) :=
  ⟨by decide, c9_retarget_assertions 10 10 1024 0 20 true (by decide)⟩

/-! ### Facts about the reward functions -/

theorem i64AsU64_eq {A : Int} (h1 : 0 ≤ A) (h2 : A < 2 ^ 64) :
    (i64AsU64 A : Int) = A := by
  unfold i64AsU64
  rw [Int.emod_eq_of_lt h1 h2, Int.toNat_of_nonneg h1]

theorem estimated_block_height_eq (a y : Nat) :
    estimated_block_height a y = 31536000 / a * y := by
  unfold estimated_block_height
  norm_num

theorem estimated_block_height_pos {a y : Nat} (h1 : 1 ≤ a) (h2 : a ≤ 31536000)
    (hy : 1 ≤ y) : 1 ≤ estimated_block_height a y := by
  rw [estimated_block_height_eq]
  have hq : 1 ≤ 31536000 / a := (Nat.one_le_div_iff h1).mpr h2
  exact Nat.mul_pos hq hy

theorem estimated_block_height_anti {a a' y : Nat} (h1 : 1 ≤ a) (h : a ≤ a') :
    estimated_block_height a' y ≤ estimated_block_height a y := by
  rw [estimated_block_height_eq, estimated_block_height_eq]
  exact Nat.mul_le_mul (Nat.div_le_div_left h h1) (le_refl y)

theorem anchor_quot_le {S H : Nat} (hH : 1 ≤ H) : 2 * S / (H * (H + 1)) ≤ S := by
  have h2 : 2 ≤ H * (H + 1) := by
    calc 2 = 1 * 2 := by norm_num
    _ ≤ H * (H + 1) := Nat.mul_le_mul hH (by omega)
  calc 2 * S / (H * (H + 1)) ≤ 2 * S / 2 := Nat.div_le_div_left h2 (by norm_num)
  _ = S := by omega

theorem anchor_reward_ok {S : Nat} {A : Int} (hA1 : 1 ≤ A) (hA2 : A ≤ 31536000)
    (hS : S ≤ U64MAX) :
    anchor_reward S A
      = .ok (2 * S / (estimated_block_height (i64AsU64 A) 10 *
          (estimated_block_height (i64AsU64 A) 10 + 1))) := by
  have hcast : (i64AsU64 A : Int) = A := i64AsU64_eq (by omega) (by omega)
  have ha1 : 1 ≤ i64AsU64 A := by omega
  have ha2 : i64AsU64 A ≤ 31536000 := by omega
  have hH : 1 ≤ estimated_block_height (i64AsU64 A) 10 :=
    estimated_block_height_pos ha1 ha2 (by norm_num)
  have hq := anchor_quot_le (S := S) hH
  unfold anchor_reward
  rw [if_neg (by positivity), if_neg (by unfold U64MAX at *; omega)]

theorem staking_reward_ok {S : Nat} {A : Int} (hA1 : 1 ≤ A) (hA2 : A ≤ 31536000)
    (hS : S ≤ U64MAX) :
    staking_reward S A
      = .ok (S * 25 / 1000 / estimated_block_height (i64AsU64 A) 1) := by
  have hcast : (i64AsU64 A : Int) = A := i64AsU64_eq (by omega) (by omega)
  have hH : 1 ≤ estimated_block_height (i64AsU64 A) 1 :=
    estimated_block_height_pos (by omega) (by omega) (by norm_num)
  have hq : S * 25 / 1000 / estimated_block_height (i64AsU64 A) 1 ≤ S := by
    have h1 : S * 25 / 1000 ≤ S := by
      have : S * 25 ≤ S * 1000 := Nat.mul_le_mul (le_refl S) (by norm_num)
      calc S * 25 / 1000 ≤ S * 1000 / 1000 := Nat.div_le_div_right this
      _ = S := by omega
    exact le_trans (Nat.div_le_self _ _) h1
  unfold staking_reward
  rw [if_neg (by omega), if_neg (by unfold U64MAX at *; omega)]

/-! ### C5: the post-year-10 reward cliff -/

/-- C5: for every block height at or past the year-10 estimated height, and
for all timestamps and epoch sizes, `coinbase_reward` returns `Ok(0)`; the
timestamps and `NUM_BLOCKS_PER_EPOCH` are irrelevant because the retarget
decay step is never invoked on the zero product. -/
theorem c5_post_cliff (S : Nat) (A : Int) (N : Nat) (pts ts : Int) (h : Nat)
    (hA1 : 1 ≤ A) (hA2 : A ≤ 31536000) (hS : S ≤ U64MAX)
    (hh : estimated_block_height (i64AsU64 A) 10 ≤ h) :
    coinbase_reward S A N pts ts h = .ok 0 := by
  have hok := anchor_reward_ok hA1 hA2 hS
  have hmx : estimated_block_height (i64AsU64 A) 10 - h = 0 := by omega
  unfold coinbase_reward
  rw [hok]
  simp [hmx]

/-- Witness for C5 at `S = 100`, `A = 10`, `N = 10`, timestamps `0, 0`,
`block_height = 31536000` (the estimated year-10 height for `A = 10`). -/
theorem c5_post_cliff_witness :
    (1 ≤ (10 : Int) ∧ (10 : Int) ≤ 31536000 ∧ 100 ≤ U64MAX ∧
        estimated_block_height (i64AsU64 10) 10 ≤ 31536000) ∧
      coinbase_reward 100 10 10 0 0 31536000 = .ok 0 :=
  ⟨⟨by decide, by decide, by decide, by decide⟩,
    c5_post_cliff 100 10 10 0 0 31536000 (by decide) (by decide) (by decide)
      (by decide)⟩

/-! ### C6: the anchor-reward formula -/

/-- C6: for every starting supply (in `u64` range) and every positive anchor
time of at most one year, `anchor_reward` returns
`Ok(floor(2*S / (H_Y10 * (H_Y10 + 1))))` with
`H_Y10 = floor(31536000 / anchor_time) * 10`; the quotient never exceeds
`u64::MAX` (it is at most `S`), so the `ArithmeticOverflow` branch — taken
exactly when the quotient exceeds `u64::MAX` — is never reached here. -/
theorem c6_anchor_reward_formula (S : Nat) (A : Int)
    (hA1 : 1 ≤ A) (hA2 : A ≤ 31536000) (hS : S ≤ U64MAX) :
    anchor_reward S A
      = .ok (2 * S / (estimated_block_height (i64AsU64 A) 10 *
          (estimated_block_height (i64AsU64 A) 10 + 1))) ∧
    estimated_block_height (i64AsU64 A) 10 = 31536000 / i64AsU64 A * 10 ∧
    2 * S / (estimated_block_height (i64AsU64 A) 10 *
        (estimated_block_height (i64AsU64 A) 10 + 1)) ≤ U64MAX := by
  have hcast : (i64AsU64 A : Int) = A := i64AsU64_eq (by omega) (by omega)
  have hH : 1 ≤ estimated_block_height (i64AsU64 A) 10 :=
    estimated_block_height_pos (by omega) (by omega) (by norm_num)
  have hq := anchor_quot_le (S := S) hH
  refine ⟨anchor_reward_ok hA1 hA2 hS, estimated_block_height_eq _ _, by omega⟩

/-- Witness for C6 at `S = 1500000000000000`, `A = 20`. -/
theorem c6_anchor_reward_formula_witness :
    (1 ≤ (20 : Int) ∧ (20 : Int) ≤ 31536000 ∧ 1500000000000000 ≤ U64MAX) ∧
      (anchor_reward 1500000000000000 20
          = .ok (2 * 1500000000000000 / (estimated_block_height (i64AsU64 20) 10 *
              (estimated_block_height (i64AsU64 20) 10 + 1))) ∧
        estimated_block_height (i64AsU64 20) 10 = 31536000 / i64AsU64 20 * 10 ∧
        2 * 1500000000000000 / (estimated_block_height (i64AsU64 20) 10 *
            (estimated_block_height (i64AsU64 20) 10 + 1)) ≤ U64MAX) :=
  ⟨⟨by decide, by decide, by decide⟩,
    c6_anchor_reward_formula 1500000000000000 20 (by decide) (by decide) (by decide)⟩

/-! ### C7: monotonicity of the rewards in the anchor time -/

/-- C7 (counterexample): increasing the anchor time from 10000 to 10001 does
not change `floor(31536000 / anchor_time)` (both give 3153), so both
`anchor_reward` and `staking_reward` are unchanged rather than strictly
increased. -/
theorem c7_counterexample :
    anchor_reward 1500000000000000 10000 = .ok 3017585 ∧
      anchor_reward 1500000000000000 10001 = .ok 3017585 ∧
      staking_reward 1500000000000000 10000 = .ok 11893434823 ∧
      staking_reward 1500000000000000 10001 = .ok 11893434823 :=
  ⟨rfl, rfl, rfl, rfl⟩

/-- C7 (amended): for every starting supply in `u64` range and anchor times
`1 ≤ A ≤ A' ≤ 31536000`, both `anchor_reward` and `staking_reward` are
monotonically NON-decreasing in the anchor time (both succeed and the value
at `A'` is at least the value at `A`); the increase is not strict in general,
since it stalls whenever `floor(31536000 / anchor_time)` is unchanged. -/
theorem c7_amended (S : Nat) (A A' : Int)
    (hA1 : 1 ≤ A) (hAA : A ≤ A') (hA2 : A' ≤ 31536000) (hS : S ≤ U64MAX) :
    (∃ r r', anchor_reward S A = .ok r ∧ anchor_reward S A' = .ok r' ∧ r ≤ r') ∧
    (∃ w w', staking_reward S A = .ok w ∧ staking_reward S A' = .ok w' ∧ w ≤ w') := by
  have hcast : (i64AsU64 A : Int) = A := i64AsU64_eq (by omega) (by omega)
  have hcast' : (i64AsU64 A' : Int) = A' := i64AsU64_eq (by omega) (by omega)
  have hmono10 : estimated_block_height (i64AsU64 A') 10
      ≤ estimated_block_height (i64AsU64 A) 10 :=
    estimated_block_height_anti (by omega) (by omega)
  have hmono1 : estimated_block_height (i64AsU64 A') 1
      ≤ estimated_block_height (i64AsU64 A) 1 :=
    estimated_block_height_anti (by omega) (by omega)
  have hH' : 1 ≤ estimated_block_height (i64AsU64 A') 10 :=
    estimated_block_height_pos (by omega) (by omega) (by norm_num)
  have hH1' : 1 ≤ estimated_block_height (i64AsU64 A') 1 :=
    estimated_block_height_pos (by omega) (by omega) (by norm_num)
  constructor
  · refine ⟨_, _, anchor_reward_ok hA1 (by omega) hS,
      anchor_reward_ok (by omega) hA2 hS, ?_⟩
    apply Nat.div_le_div_left
    · exact Nat.mul_le_mul hmono10 (by omega)
    · exact Nat.mul_pos hH' (by omega)
  · refine ⟨_, _, staking_reward_ok hA1 (by omega) hS,
      staking_reward_ok (by omega) hA2 hS, ?_⟩
    exact Nat.div_le_div_left hmono1 hH1'

/-- Witness for C7 (amended) at `S = 1500000000000000`, `A = 100`,
`A' = 101`. -/
theorem c7_amended_witness :
    (1 ≤ (100 : Int) ∧ (100 : Int) ≤ 101 ∧ (101 : Int) ≤ 31536000 ∧
        1500000000000000 ≤ U64MAX) ∧
      ((∃ r r', anchor_reward 1500000000000000 100 = .ok r ∧
          anchor_reward 1500000000000000 101 = .ok r' ∧ r ≤ r') ∧
        (∃ w w', staking_reward 1500000000000000 100 = .ok w ∧
          staking_reward 1500000000000000 101 = .ok w' ∧ w ≤ w')) :=
  ⟨⟨by decide, by decide, by decide, by decide⟩,
    c7_amended 1500000000000000 100 101 (by decide) (by decide) (by decide)
      (by decide)⟩

/-! ### C10: totality of the reward functions in the anchor time -/

/-- C10: totality of the reward functions requires the anchor time to be at
most one year (31536000 seconds), not merely positive.  For any larger
anchor time `estimated_block_height` returns 0 and `anchor_reward` (hence
`staking_reward` and `coinbase_reward`) divides by zero — modelled as the
`RErr.panic` outcome.  Within `1 ≤ anchor_time ≤ 31536000` the divisions are
well-defined for every starting supply: `anchor_reward` and `staking_reward`
succeed and `coinbase_reward` never panics. -/
theorem c10_totality :
    (∀ (S : Nat) (A : Int) (N : Nat) (pts ts : Int) (h : Nat),
        31536000 < A → A ≤ 2 ^ 63 - 1 →
        estimated_block_height (i64AsU64 A) 10 = 0 ∧
          anchor_reward S A = .error .panic ∧
          staking_reward S A = .error .panic ∧
          coinbase_reward S A N pts ts h = .error .panic) ∧
    (∀ (S : Nat) (A : Int) (N : Nat) (pts ts : Int) (h : Nat),
        1 ≤ A → A ≤ 31536000 → S ≤ U64MAX → 1 ≤ N →
        (∃ v, anchor_reward S A = .ok v) ∧
          (∃ w, staking_reward S A = .ok w) ∧
          coinbase_reward S A N pts ts h ≠ .error .panic) := by
  constructor
  · intro S A N pts ts h hA1 hA2
    have hcast : (i64AsU64 A : Int) = A := i64AsU64_eq (by omega) (by omega)
    have hz : 31536000 / i64AsU64 A = 0 := Nat.div_eq_of_lt (by omega)
    have h10 : estimated_block_height (i64AsU64 A) 10 = 0 := by
      rw [estimated_block_height_eq, hz]
    have h1 : estimated_block_height (i64AsU64 A) 1 = 0 := by
      rw [estimated_block_height_eq, hz]
    have hanchor : anchor_reward S A = .error .panic := by
      unfold anchor_reward
      rw [if_pos (by rw [h10])]
    refine ⟨h10, hanchor, ?_, ?_⟩
    · unfold staking_reward
      rw [if_pos h1]
    · unfold coinbase_reward
      rw [hanchor]
  · intro S A N pts ts h hA1 hA2 hS hN
    have hanchor := anchor_reward_ok hA1 hA2 hS
    refine ⟨⟨_, hanchor⟩, ⟨_, staking_reward_ok hA1 hA2 hS⟩, ?_⟩
    unfold coinbase_reward
    rw [hanchor]
    dsimp only
    split
    · simp
    · split <;> simp

/-- Witness for C10: part one at `S = 7`, `A = 31536001`, part two at
`S = 7`, `A = 20`, each with `N = 10`, timestamps `0, 0`, height 5. -/
theorem c10_totality_witness :
    ((31536000 < (31536001 : Int) ∧ (31536001 : Int) ≤ 2 ^ 63 - 1) ∧
        (estimated_block_height (i64AsU64 31536001) 10 = 0 ∧
          anchor_reward 7 31536001 = .error .panic ∧
          staking_reward 7 31536001 = .error .panic ∧
          coinbase_reward 7 31536001 10 0 0 5 = .error .panic)) ∧
      ((1 ≤ (20 : Int) ∧ (20 : Int) ≤ 31536000 ∧ 7 ≤ U64MAX ∧ 1 ≤ (10 : Nat)) ∧
        ((∃ v, anchor_reward 7 20 = .ok v) ∧
          (∃ w, staking_reward 7 20 = .ok w) ∧
          coinbase_reward 7 20 10 0 0 5 ≠ .error .panic)) :=
  ⟨⟨⟨by decide, by decide⟩,
      c10_totality.1 7 31536001 10 0 0 5 (by decide) (by decide)⟩,
    ⟨⟨by decide, by decide, by decide, by decide⟩,
      c10_totality.2 7 20 10 0 0 5 (by decide) (by decide) (by decide) (by decide)⟩⟩

/-! ### Direction lemmas for the retarget step -/

theorem retarget_decrease {A : Int} {N prev : Nat} {pts ts : Int}
    (hA1 : 1 ≤ A) (hA2 : A ≤ 2 ^ 63 - 1) (hN : 1 ≤ N)
    (hslow : A < blockTimeElapsed pts ts)
    (hexp1 : (N : Int) ≤ 65536 * (blockTimeElapsed pts ts - A))
    (hexp2 : 65536 * (blockTimeElapsed pts ts - A) ≤ (2 ^ 32 - 17) * 65536 * (N : Int))
    (hprev1 : 2 ≤ prev) (hprev2 : prev ≤ U64MAX) :
    retarget A N prev pts ts true < prev := by
  have hel1 := blockTimeElapsed_lb pts ts
  have hel2 := blockTimeElapsed_ub pts ts
  have hNpos : (0 : Int) < (N : Int) := by exact_mod_cast hN
  have hdr_eq : driftRaw A pts ts = blockTimeElapsed pts ts - A :=
    driftRaw_eq pts ts hA1 hA2
  have hdr_ne : driftRaw A pts ts ≠ 0 := by omega
  have hexp_eq : exponentOf A N pts ts true
      = Int.tdiv (65536 * (A - blockTimeElapsed pts ts)) (N : Int) := by
    unfold exponentOf
    rw [driftInv_true_eq pts ts hA1 hA2, i128satMul_eq (by omega) (by omega)]
  have hexp_eq2 : exponentOf A N pts ts true
      = -((65536 * (blockTimeElapsed pts ts - A)) / (N : Int)) := by
    rw [hexp_eq,
      show 65536 * (A - blockTimeElapsed pts ts)
        = -(65536 * (blockTimeElapsed pts ts - A)) by ring,
      Int.neg_tdiv, Int.tdiv_eq_ediv (by omega) (by omega)]
  have hq1 : 1 ≤ (65536 * (blockTimeElapsed pts ts - A)) / (N : Int) :=
    (Int.le_ediv_iff_mul_le hNpos).mpr (by omega)
  have hq2 : (65536 * (blockTimeElapsed pts ts - A)) / (N : Int)
      ≤ (2 ^ 32 - 17) * 65536 := by
    have h := Int.ediv_le_ediv hNpos hexp2
    rwa [Int.mul_ediv_cancel _ (by omega)] at h
  have hI_eq : integralOf A N pts ts true
      = -((65536 * (blockTimeElapsed pts ts - A)) / (N : Int)) / 65536 := by
    rw [integralOf_eq, hexp_eq2]
  have hI1 : integralOf A N pts ts true ≤ -1 := by
    have := Int.ediv_neg'
      (a := -((65536 * (blockTimeElapsed pts ts - A)) / (N : Int)))
      (b := 65536) (by omega) (by norm_num)
    omega
  have hI2 : -(2 ^ 32 - 17) ≤ integralOf A N pts ts true := by
    have h := Int.ediv_le_ediv (a := (-(2 ^ 32 - 17)) * 65536)
      (b := -((65536 * (blockTimeElapsed pts ts - A)) / (N : Int)))
      (c := (65536 : Int)) (by norm_num) (by omega)
    rw [Int.mul_ediv_cancel _ (by norm_num)] at h
    omega
  have hfrac := fractionalOf_lt A N pts ts true
  have hfm_ub := fmulOf_ub hfrac
  have hcand : candidateOf A N prev pts ts true
      = prev * fmulOf (fractionalOf A N pts ts true) := by
    unfold candidateOf
    apply u128satMul_eq
    calc prev * fmulOf (fractionalOf A N pts ts true)
        ≤ (2 ^ 64 - 1) * 131071 :=
          Nat.mul_le_mul (by unfold U64MAX at hprev2; omega) hfm_ub
    _ ≤ U128MAX := by unfold U128MAX; norm_num
  have hshift_lt : integralOf A N pts ts true - 16 < 0 := by omega
  have hcastS : (u32cast (-(integralOf A N pts ts true - 16)) : Int)
      = -(integralOf A N pts ts true - 16) := u32cast_eq (by omega) (by omega)
  have hs17 : 17 ≤ u32cast (-(integralOf A N pts ts true - 16)) := by omega
  unfold retarget
  rw [if_neg hdr_ne]
  unfold shiftedOf
  dsimp only
  rw [if_pos hshift_lt, hcand]
  by_cases hs128 : 128 ≤ u32cast (-(integralOf A N pts ts true - 16))
  · rw [if_pos hs128]
    unfold U64MAX
    omega
  · rw [if_neg hs128]
    have hpow : 2 ^ 17 ≤ 2 ^ u32cast (-(integralOf A N pts ts true - 16)) :=
      Nat.pow_le_pow_right (by norm_num) hs17
    have hfmlt : fmulOf (fractionalOf A N pts ts true)
        < 2 ^ u32cast (-(integralOf A N pts ts true - 16)) := by omega
    have hdiv : prev * fmulOf (fractionalOf A N pts ts true)
        / 2 ^ u32cast (-(integralOf A N pts ts true - 16)) < prev :=
      (Nat.div_lt_iff_lt_mul (by positivity)).mpr
        (mul_lt_mul_of_pos_left hfmlt (by omega))
    have hmax := max_lt hdiv (show 1 < prev by omega)
    exact lt_of_le_of_lt (min_le_left _ _) hmax

theorem retarget_increase {A : Int} {N prev : Nat} {pts ts : Int}
    (hA1 : 1 ≤ A) (hA2 : A ≤ 2 ^ 63 - 1) (hN : 1 ≤ N)
    (hfast : blockTimeElapsed pts ts < A)
    (hexp1 : (N : Int) ≤ 65536 * (A - blockTimeElapsed pts ts))
    (hexp2 : A - blockTimeElapsed pts ts < (N : Int))
    (hprev1 : 65536 ≤ prev) (hprev2 : prev < U64MAX) :
    prev < retarget A N prev pts ts true := by
  have hel1 := blockTimeElapsed_lb pts ts
  have hel2 := blockTimeElapsed_ub pts ts
  have hNpos : (0 : Int) < (N : Int) := by exact_mod_cast hN
  have hdr_eq : driftRaw A pts ts = blockTimeElapsed pts ts - A :=
    driftRaw_eq pts ts hA1 hA2
  have hdr_ne : driftRaw A pts ts ≠ 0 := by omega
  have hexp_eq : exponentOf A N pts ts true
      = (65536 * (A - blockTimeElapsed pts ts)) / (N : Int) := by
    unfold exponentOf
    rw [driftInv_true_eq pts ts hA1 hA2, i128satMul_eq (by omega) (by omega),
      Int.tdiv_eq_ediv (by omega) (by omega)]
  have he1 : 1 ≤ exponentOf A N pts ts true := by
    rw [hexp_eq]
    exact (Int.le_ediv_iff_mul_le hNpos).mpr (by omega)
  have he2 : exponentOf A N pts ts true < 65536 := by
    rw [hexp_eq]
    exact (Int.ediv_lt_iff_lt_mul hNpos).mpr (by omega)
  have hI0 : integralOf A N pts ts true = 0 := by
    rw [integralOf_eq]
    exact Int.ediv_eq_zero_of_lt (by omega) (by omega)
  have hfrac_eq : (fractionalOf A N pts ts true : Int)
      = exponentOf A N pts ts true := by
    rw [fractionalOf_cast, Int.emod_eq_of_lt (by omega) (by omega)]
  have hfrac1 : 1 ≤ fractionalOf A N pts ts true := by omega
  have hfm_lb := fmulOf_lb hfrac1
  have hfm_ub := fmulOf_ub (fractionalOf_lt A N pts ts true)
  have hcand : candidateOf A N prev pts ts true
      = prev * fmulOf (fractionalOf A N pts ts true) := by
    unfold candidateOf
    apply u128satMul_eq
    calc prev * fmulOf (fractionalOf A N pts ts true)
        ≤ (2 ^ 64 - 1) * 131071 :=
          Nat.mul_le_mul (by unfold U64MAX at hprev2; omega) hfm_ub
    _ ≤ U128MAX := by unfold U128MAX; norm_num
  have hc16 : u32cast (-(integralOf A N pts ts true - 16)) = 16 := by
    rw [hI0]
    decide
  have hdiv2 : prev + 1 ≤ prev * fmulOf (fractionalOf A N pts ts true) / 2 ^ 16 := by
    rw [Nat.le_div_iff_mul_le (by norm_num)]
    have h := Nat.mul_le_mul (le_refl prev) hfm_lb
    omega
  unfold retarget
  rw [if_neg hdr_ne]
  unfold shiftedOf
  dsimp only
  rw [if_pos (by omega : integralOf A N pts ts true - 16 < 0), hcand, hc16,
    if_neg (by norm_num)]
  have hmax : prev < max (prev * fmulOf (fractionalOf A N pts ts true) / 2 ^ 16) 1 :=
    lt_of_lt_of_le (by omega) (le_max_left _ _)
  exact lt_min hmax (by unfold U64MAX at *; omega)

/-! ### C2: direction semantics of the coinbase target -/

/-- C2 (counterexample): with toy constants `anchor_time = 10`,
`num_blocks_per_epoch = 10` and a previous coinbase target of 1023 (the
network floor), a doubled block interval (timestamps `0, 20`, slower blocks)
does NOT decrease the coinbase target: it stays at 1023. -/
theorem c2_counterexample :
    coinbase_target 10 10 1023 0 20 = 1023 ∧
      ¬ coinbase_target 10 10 1023 0 20 < 1023 :=
  ⟨by decide, by decide⟩

/-- C2 (amended): with `is_inverse = true` the direction semantics hold
away from the boundary cases.  Slower blocks: if the elapsed time exceeds
the anchor time, the previous target is above the `2^10 - 1` floor (and in
`u64` range), and the drift is large enough that the truncated exponent is
nonzero yet small enough that the shift amount does not wrap a `u32`
(`N ≤ 65536*(elapsed - A) ≤ (2^32 - 17)*65536*N`), then `coinbase_target`
strictly decreases.  Faster blocks: if the elapsed time is below the anchor
time, the previous target is at least `2^16` and below `u64::MAX`, and the
truncated exponent lies in `[1, 65536)` (`A - elapsed < N ≤
65536*(A - elapsed)`), then `coinbase_target` strictly increases. -/
theorem c2_amended :
    (∀ (A : Int) (N prev : Nat) (pts ts : Int),
        1 ≤ A → A ≤ 2 ^ 63 - 1 → 1 ≤ N →
        A < blockTimeElapsed pts ts →
        (N : Int) ≤ 65536 * (blockTimeElapsed pts ts - A) →
        65536 * (blockTimeElapsed pts ts - A) ≤ (2 ^ 32 - 17) * 65536 * (N : Int) →
        1024 ≤ prev → prev ≤ U64MAX →
        coinbase_target A N prev pts ts < prev) ∧
    (∀ (A : Int) (N prev : Nat) (pts ts : Int),
        1 ≤ A → A ≤ 2 ^ 63 - 1 → 1 ≤ N →
        blockTimeElapsed pts ts < A →
        (N : Int) ≤ 65536 * (A - blockTimeElapsed pts ts) →
        A - blockTimeElapsed pts ts < (N : Int) →
        65536 ≤ prev → prev < U64MAX →
        prev < coinbase_target A N prev pts ts) := by
  constructor
  · intro A N prev pts ts hA1 hA2 hN hslow hexp1 hexp2 hprev1 hprev2
    have hret := retarget_decrease hA1 hA2 hN hslow hexp1 hexp2 (by omega) hprev2
    exact max_lt (by omega) hret
  · intro A N prev pts ts hA1 hA2 hN hfast hexp1 hexp2 hprev1 hprev2
    have hret := retarget_increase hA1 hA2 hN hfast hexp1 hexp2 hprev1 hprev2
    exact lt_of_lt_of_le hret (le_max_right _ _)

/-- Witness for C2 (amended): slower blocks at `A = 10`, `N = 10`,
`prev = 1024`, timestamps `0, 20`; faster blocks at `A = 10`, `N = 10`,
`prev = 131072`, timestamps `0, 5`. -/
theorem c2_amended_witness :
    (coinbase_target 10 10 1024 0 20 < 1024) ∧
      (131072 < coinbase_target 10 10 131072 0 5) :=
  ⟨c2_amended.1 10 10 1024 0 20 (by decide) (by decide) (by decide) (by decide)
      (by decide) (by decide) (by decide) (by decide),
    c2_amended.2 10 10 131072 0 5 (by decide) (by decide) (by decide) (by decide)
      (by decide) (by decide) (by decide) (by decide)⟩

/-! ### C8: the nonnegative-shift branch of retarget -/

set_option maxRecDepth 8000 in
/-- C8 (counterexample): in `retarget` with `anchor_time = 66`, `N = 1`,
`previous_target = 2^63` and equal timestamps (drift 65 after inversion, so
`shift = 49 ≥ 0`), the left shift `2^79 << 49` overflows `u128`; the code
does NOT saturate to `u64::MAX` — `checked_shl` silently discards the high
bits, giving 0, which the floor raises to 1. -/
theorem c8_counterexample :
    retarget 66 1 9223372036854775808 0 0 true = 1 ∧
      retarget 66 1 9223372036854775808 0 0 true ≠ U64MAX :=
  ⟨by decide, by decide⟩

/-- C8 (amended): when `shift = integral - RBITS` is nonnegative, the
candidate is left-shifted by `shift` truncated to `u32`; the result
saturates to `u64::MAX` exactly when that truncated shift amount is at
least 128 (in particular whenever `144 ≤ integral ≤ 2^32 + 15`).  A shifted
result that merely exceeds `u128` is NOT saturated: its high bits are
discarded (the value is taken modulo `2^128`), floored at 1 and capped at
`u64::MAX`. -/
theorem c8_amended (A : Int) (N prev : Nat) (pts ts : Int) (inv : Bool)
    (h1 : 144 ≤ integralOf A N pts ts inv)
    (h2 : integralOf A N pts ts inv ≤ 2 ^ 32 + 15) :
    retarget A N prev pts ts inv = U64MAX := by
  have hdr : driftRaw A pts ts ≠ 0 := by
    intro h0
    have hw : wrap64 (-0 : Int) = 0 := by decide
    have hinv : driftInv A pts ts inv = 0 := by
      unfold driftInv
      cases inv
      · simpa using h0
      · simp only [h0]
        simpa using hw
    have hexp : exponentOf A N pts ts inv = 0 := by
      unfold exponentOf
      rw [hinv]
      norm_num [i128satMul]
    have hI : integralOf A N pts ts inv = 0 := by
      unfold integralOf
      rw [hexp]
      rfl
    omega
  have hcastS : (u32cast (integralOf A N pts ts inv - 16) : Int)
      = integralOf A N pts ts inv - 16 := u32cast_eq (by omega) (by omega)
  unfold retarget
  rw [if_neg hdr]
  unfold shiftedOf
  dsimp only
  rw [if_neg (by omega : ¬ integralOf A N pts ts inv - 16 < 0),
    if_pos (by omega : 128 ≤ u32cast (integralOf A N pts ts inv - 16))]
  exact min_self U64MAX

set_option maxRecDepth 8000 in
/-- Witness for C8 (amended) at `A = 145`, `N = 1`, `prev = 5`, equal
timestamps, `is_inverse = true` (integral 144, truncated shift 128). -/
theorem c8_amended_witness :
    (144 ≤ integralOf 145 1 0 0 true ∧ integralOf 145 1 0 0 true ≤ 2 ^ 32 + 15) ∧
      retarget 145 1 5 0 0 true = U64MAX :=
  ⟨⟨by decide, by decide⟩, c8_amended 145 1 5 0 0 true (by decide) (by decide)⟩
